import Mathlib

/-!
Shallow embedding of the scoring/ranking/learning core of the
self-education recommendation assistant (src/recommender.py) together
with the persistence operations it drives (src/database.py).

Python floats are modelled as exact rationals (`Rat`); the literal `0.2`
in the tag boost becomes `1/5`.  SQLite tables are modelled as lists of
rows; timestamp columns (`created_at`, `last_activity`, ...) are
abstracted away, and foreign keys are not enforced (SQLite's default).
The collaborator calls `get_all_items`, `get_item` and
`get_user_interactions` are invoked by `recommender.py` but are not
defined anywhere in the repository; they are modelled from the spec's
external-interface section as oracle fields of `Env`.  The two ML
scorers (sentence embedding, keyword relevance model) are likewise
oracles, since their numeric behaviour is external model inference.
-/

namespace EduRec

/-- A catalog item as returned by the store's `get_all_items`/`get_item`
(fields read by `recommender.py`: `id`, `item_type`, `title`, `tags`,
`description`, `url`). -/
structure Item where
  id : Int
  item_type : String
  title : String
  tags : String
  description : String
  url : String
deriving DecidableEq, Inhabited

/-- A row of the `events`/`courses` tables (src/database.py
`_initialize_db`).  The columns not touched by `log_interaction`
(`date`, `location`, `provider`, `price`, ... and the timestamps) are
collapsed into `extra`. -/
structure Row where
  id : Int
  title : String
  tags : String
  description : String
  url : String
  popularity : Int
  extra : String
deriving DecidableEq, Inhabited

/-- A row of the `interactions` table (timestamp abstracted away). -/
structure Interaction where
  user_id : Int
  item_id : Int
  item_type : String
  interaction_type : String
deriving DecidableEq, Inhabited

/-- The database state: the four tables created by `_initialize_db`.
A user row is its key together with the `preferences` column, modelled
as the stored `preferred_tags` value (`none` = NULL/absent). -/
structure DBState where
  events : List Row
  courses : List Row
  users : List (Int × Option (List String))
  interactions : List Interaction
deriving DecidableEq, Inhabited

/-- The CHECK constraint on `interactions.interaction_type` declared in
`_initialize_db` (src/database.py line 99).  Note that `recommendation`
is NOT in the allowed set. -/
def validInteractionType (t : String) : Bool :=
  t == "view" || t == "like" || t == "dislike" || t == "bookmark"

/-- The CHECK constraint on `interactions.item_type` (line 98). -/
def validItemType (t : String) : Bool :=
  t == "event" || t == "course"

/-- Embedding of `UPDATE ... SET popularity = popularity + 1 WHERE id = ?`. -/
def bumpPopularity (item_id : Int) (rows : List Row) : List Row :=
  rows.map fun r => if r.id = item_id then { r with popularity := r.popularity + 1 } else r

/-- Embedding of `DatabaseManager.log_interaction` (src/database.py lines 271-321):
inserts the interaction row; the insert is rejected (sqlite raises, the
method catches and returns `False` with no change committed) when a
CHECK constraint fails.  On success, a `like`/`bookmark` additionally
increments the popularity of the row with the given id in the table
selected by `item_type` (`events` if `'event'`, else `courses`). -/
def log_interaction (db : DBState) (user_id item_id : Int)
    (item_type interaction_type : String) : Bool × DBState :=
  if validItemType item_type && validInteractionType interaction_type then
    let db1 : DBState :=
      { db with interactions :=
          db.interactions ++ [⟨user_id, item_id, item_type, interaction_type⟩] }
    let db2 : DBState :=
      if interaction_type == "like" || interaction_type == "bookmark" then
        if item_type == "event" then
          { db1 with events := bumpPopularity item_id db1.events }
        else
          { db1 with courses := bumpPopularity item_id db1.courses }
      else db1
    (true, db2)
  else (false, db)

/-- Embedding of `DatabaseManager.update_user_preferences` (lines 340-363):
`INSERT OR IGNORE` the user row, then overwrite its `preferences`
column with the new `preferred_tags` value. -/
def update_user_preferences (db : DBState) (user_id : Int)
    (preferred_tags : List String) : Bool × DBState :=
  let users1 :=
    if db.users.any (fun u => decide (u.1 = user_id)) then db.users
    else db.users ++ [(user_id, none)]
  let users2 := users1.map fun u =>
    if u.1 = user_id then (u.1, some preferred_tags) else u
  (true, { db with users := users2 })

/-- The `preferences` column stored for a user (`none` = no user row;
`some none` = row present with NULL preferences). -/
def storedPrefs (db : DBState) (user_id : Int) : Option (Option (List String)) :=
  (db.users.find? (fun u => decide (u.1 = user_id))).map (fun u => u.2)

/-- Python's `str.split(',')` on the underlying character list:
`""` splits to `[""]`, consecutive commas yield empty pieces. -/
def splitOnComma : List Char → List (List Char)
  | [] => [[]]
  | c :: cs =>
    if c = ',' then [] :: splitOnComma cs
    else
      match splitOnComma cs with
      | [] => [[c]]
      | h :: t => (c :: h) :: t

/-- Python's `str.strip()`: drop whitespace from both ends. -/
def stripChars (cs : List Char) : List Char :=
  ((cs.dropWhile Char.isWhitespace).reverse.dropWhile Char.isWhitespace).reverse

/-- Tag parsing `tag.strip() for tag in tags.split(',')` used in
both `recommend` and `train_user_preferences`. -/
def splitTags (s : String) : List String :=
  (splitOnComma s.data).map fun cs => String.mk (stripChars cs)

/-- Embedding of `len(preferred_tags & item_tags)`: the number of distinct parsed
tags of the item that occur among the preferred tags. -/
def commonTagCount (preferred_tags : List String) (tagsStr : String) : Nat :=
  (((splitTags tagsStr).dedup).filter fun t => preferred_tags.contains t).length

/-- Embedding of `hybrid_weight * semantic + (1 - hybrid_weight) * keyword`
(src/recommender.py lines 112-113). -/
def hybridScore (w s k : Rat) : Rat := w * s + (1 - w) * k

/-- The tag-boost loop (lines 120-124): for each item, if it shares
`c > 0` parsed tags with the preferred tags, multiply its score by
`1 + 0.2 * c`. -/
def applyBoost (preferred_tags : List String) (items : List Item)
    (scores : List Rat) : List Rat :=
  (items.zip scores).map fun p =>
    let c := commonTagCount preferred_tags p.1.tags
    if 0 < c then p.2 * (1 + (c : Rat) / 5) else p.2

/-- Comparison used to model `np.argsort` (ascending, stable): value
order with the original position as tie-break.  A stable ascending sort
of `[0, ..., n-1]` by value coincides with sorting by this total order. -/
def argsortRel (s : List Rat) (i j : Nat) : Prop :=
  s.getD i 0 < s.getD j 0 ∨ (s.getD i 0 = s.getD j 0 ∧ i ≤ j)

instance (s : List Rat) (i j : Nat) : Decidable (argsortRel s i j) :=
  inferInstanceAs (Decidable (Or _ _))

/-- Model of `np.argsort(scores)`: the indices `0, ..., len-1` sorted ascending
by score, ties kept in position order. -/
def argsort (s : List Rat) : List Nat :=
  List.insertionSort (argsortRel s) (List.range s.length)

/-- The collaborator environment seen by `HybridRecommender`: store
reads and model inference, each of which may fail (an exception at that
call site). -/
structure Env where
  /-- Modelled from the spec: `get_all_items() -> sequence<CatalogItem>`
  is called by `recommend` but is not defined in src/database.py. -/
  get_all_items : Except Unit (List Item)
  /-- Collaborator read `get_user_preferences` (src/database.py lines 323-338), as a
  failable collaborator read returning the stored `preferred_tags`
  (`none` when absent, falsy or unparseable). -/
  get_user_preferences : Int → Except Unit (Option (List String))
  /-- Collaborator call `semantic_similarity` (src/recommender.py lines 49-54): embedding
  model inference; failures escape to the caller. -/
  semantic_similarity : String → List String → Except Unit (List Rat)
  /-- The raw keyword-relevance model call wrapped by
  `keyword_relevance` (lines 58-67). -/
  keyword_model : String → List String → Except Unit (List Rat)
  /-- Modelled from the spec: `get_item(id, type) -> CatalogItem |
  not-found` is called by `train_user_preferences` but is not defined in
  src/database.py. -/
  get_item : Int → String → Except Unit (Option Item)
  /-- Modelled from the spec: `get_user_interactions(user_id) ->
  sequence<Interaction>` is called by `train_user_preferences` but is
  not defined in src/database.py. -/
  get_user_interactions : Int → Except Unit (List Interaction)

/-- Embedding of `HybridRecommender.keyword_relevance` (lines 56-70): any inference
failure is caught and replaced by a zero vector of the input length. -/
def keyword_relevance (env : Env) (query : String) (texts : List String) : List Rat :=
  match env.keyword_model query texts with
  | Except.ok v => v
  | Except.error _ => List.replicate texts.length 0

/-- The text assembled per item (line 101):
`f"{title}. {tags}. {description}"`. -/
def itemText (it : Item) : String :=
  it.title ++ ". " ++ it.tags ++ ". " ++ it.description

/-- Python truthiness of the optional user id, as in `if user_id:`. -/
def uidTruthy : Option Int → Bool
  | none => false
  | some u => decide (u ≠ 0)

/-- The preference-boost step of `recommend` (lines 116-124): only a
truthy `user_id` triggers the preference read, and only a non-empty
stored `preferred_tags` list triggers the boost. -/
def boostedScores (env : Env) (uid : Option Int) (items : List Item)
    (scores : List Rat) : Except Unit (List Rat) :=
  match uid with
  | none => Except.ok scores
  | some u =>
    if u = 0 then Except.ok scores
    else
      match env.get_user_preferences u with
      | Except.error e => Except.error e
      | Except.ok none => Except.ok scores
      | Except.ok (some ts) =>
        if ts.isEmpty then Except.ok scores
        else Except.ok (applyBoost ts items scores)

/-- One returned recommendation record (the dict built at lines
133-143). -/
structure ScoredItem where
  item_type : String
  id : Int
  title : String
  score : Rat
  url : String
  tags : String
  description : String
  semantic_score : Rat
  keyword_score : Rat
deriving DecidableEq, Inhabited

/-- The dict appended for index `idx` of the sorted order. -/
def mkScored (items : List Item) (sem kw hybrid : List Rat) (idx : Nat) : ScoredItem :=
  let it := items.getD idx default
  { item_type := it.item_type, id := it.id, title := it.title,
    score := hybrid.getD idx 0, url := it.url, tags := it.tags,
    description := it.description, semantic_score := sem.getD idx 0,
    keyword_score := kw.getD idx 0 }

/-- One iteration of the result loop (lines 131-152): append the
record, and for a truthy `user_id` log a `recommendation` interaction
through the store (its success flag is ignored). -/
def buildStep (uid : Option Int) (items : List Item) (sem kw hybrid : List Rat)
    (acc : List ScoredItem × DBState) (idx : Nat) : List ScoredItem × DBState :=
  let it := items.getD idx default
  let r := mkScored items sem kw hybrid idx
  let db2 :=
    if uidTruthy uid then
      (log_interaction acc.2 (uid.getD 0) it.id it.item_type "recommendation").2
    else acc.2
  (acc.1 ++ [r], db2)

/-- The body of `HybridRecommender.recommend` (lines 91-155) before the
outer `except`: each failable step propagates its error.  Score vectors
of the wrong length would make the numpy arithmetic or the indexing
raise; this is modelled as an error at the length guard. -/
def recommendE (env : Env) (db : DBState) (query : String) (uid : Option Int)
    (limit : Nat) (w : Rat) : Except Unit (List ScoredItem × DBState) :=
  match env.get_all_items with
  | Except.error e => Except.error e
  | Except.ok items =>
    if items.isEmpty then Except.ok ([], db)
    else
      let texts := items.map itemText
      match env.semantic_similarity query texts with
      | Except.error e => Except.error e
      | Except.ok semantic_scores =>
        let keyword_scores := keyword_relevance env query texts
        if semantic_scores.length = items.length ∧ keyword_scores.length = items.length then
          let hybrid0 := List.zipWith (hybridScore w) semantic_scores keyword_scores
          match boostedScores env uid items hybrid0 with
          | Except.error e => Except.error e
          | Except.ok hybrid_scores =>
            let sorted_indices := ((argsort hybrid_scores).reverse).take limit
            Except.ok (sorted_indices.foldl
              (buildStep uid items semantic_scores keyword_scores hybrid_scores) ([], db))
        else Except.error ()

/-- Embedding of `HybridRecommender.recommend` (lines 72-159): the whole body is in
a `try` whose handler returns `[]`, leaving the store state as it was
at the failure point (no state is changed before the result loop, and
the loop itself cannot raise). -/
def recommend (env : Env) (db : DBState) (query : String) (uid : Option Int)
    (limit : Nat) (w : Rat) : List ScoredItem × DBState :=
  match recommendE env db query uid limit w with
  | Except.ok r => r
  | Except.error _ => ([], db)

/-- Embedding of `set.update` on tag lists with set semantics: append the new tags
not already present. -/
def unionTags (acc tags : List String) : List String :=
  acc ++ tags.filter fun t => ¬ acc.contains t

/-- The tag-collection loop of `train_user_preferences` (lines
182-187): resolve each positive interaction through `get_item`; items
that resolve and have a non-empty (truthy) `tags` string contribute
their parsed tag set to the union. -/
def collectTags (env : Env) : List Interaction → List String → Except Unit (List String)
  | [], acc => Except.ok acc
  | i :: rest, acc =>
    match env.get_item i.item_id i.item_type with
    | Except.error e => Except.error e
    | Except.ok none => collectTags env rest acc
    | Except.ok (some it) =>
      if it.tags = "" then collectTags env rest acc
      else collectTags env rest (unionTags acc ((splitTags it.tags).dedup))

/-- The body of `HybridRecommender.train_user_preferences` (lines
166-196) before the outer `except`. -/
def train_user_preferencesE (env : Env) (db : DBState) (user_id : Int) :
    Except Unit (Bool × DBState) :=
  match env.get_user_interactions user_id with
  | Except.error e => Except.error e
  | Except.ok interactions =>
    if interactions.isEmpty then Except.ok (false, db)
    else
      let positive_items := interactions.filter fun i =>
        decide (i.interaction_type = "like" ∨ i.interaction_type = "bookmark")
      if positive_items.isEmpty then Except.ok (false, db)
      else
        match collectTags env positive_items [] with
        | Except.error e => Except.error e
        | Except.ok preferred_tags =>
          Except.ok (true, (update_user_preferences db user_id preferred_tags).2)

/-- Embedding of `HybridRecommender.train_user_preferences` (lines 161-200): any
escaping exception is caught and turned into `false` with the store
left as it was. -/
def train_user_preferences (env : Env) (db : DBState) (user_id : Int) :
    Bool × DBState :=
  match train_user_preferencesE env db user_id with
  | Except.ok r => r
  | Except.error _ => (false, db)

/-! ### Propositions and concrete fixtures used by the theorems -/

/-- The order in which `recommend` emits items: strictly greater score
first; among equal scores the larger catalog index first. -/
def rankRel (s : List Rat) (i j : Nat) : Prop :=
  s.getD j 0 < s.getD i 0 ∨ (s.getD i 0 = s.getD j 0 ∧ j < i)

/-- The effect `log_interaction` is supposed to have on a table: same
length, every non-popularity field of every row unchanged, and the
popularity of exactly the rows whose `id` is the referenced item id
incremented by one. -/
def bumpSpec (old new : List Row) (iid : Int) : Prop :=
  new.length = old.length ∧
  ∀ (n : Nat) (hn : n < old.length) (hn' : n < new.length),
    (new[n]).id = (old[n]).id ∧ (new[n]).title = (old[n]).title ∧
    (new[n]).tags = (old[n]).tags ∧
    (new[n]).description = (old[n]).description ∧
    (new[n]).url = (old[n]).url ∧ (new[n]).extra = (old[n]).extra ∧
    (new[n]).popularity =
      (old[n]).popularity + (if (old[n]).id = iid then 1 else 0)

/-- Catalog fixtures shared by the concrete instances below. -/
def itemA : Item := ⟨1, "event", "TA", "a, b", "DA", "uA"⟩

def itemB : Item := ⟨2, "course", "TB", "x", "DB", "uB"⟩

/-- Concrete two-table store used by several witnesses. -/
def dbW : DBState :=
  ⟨[⟨1, "TA", "a, b", "DA", "uA", 0, ""⟩],
   [⟨1, "TC", "c", "DC", "uC", 3, ""⟩], [], []⟩

/-- Concrete environment whose keyword model always fails. -/
def envKwFail : Env :=
  { get_all_items := Except.ok []
    get_user_preferences := fun _ => Except.ok none
    semantic_similarity := fun _ _ => Except.ok []
    keyword_model := fun _ _ => Except.error ()
    get_item := fun _ _ => Except.ok none
    get_user_interactions := fun _ => Except.ok [] }

/-- Environment with a history of one `view` for every user. -/
def envC4 : Env :=
  { get_all_items := Except.ok []
    get_user_preferences := fun _ => Except.ok none
    semantic_similarity := fun _ _ => Except.ok []
    keyword_model := fun _ _ => Except.ok []
    get_item := fun _ _ => Except.ok none
    get_user_interactions := fun _ => Except.ok [⟨1, 1, "event", "view"⟩] }

/-- Environment producing two catalog items with identical semantic
and keyword scores (a tie). -/
def envTie : Env :=
  { get_all_items := Except.ok [itemA, itemB]
    get_user_preferences := fun _ => Except.ok none
    semantic_similarity := fun _ _ => Except.ok [0, 0]
    keyword_model := fun _ _ => Except.ok [0, 0]
    get_item := fun _ _ => Except.ok none
    get_user_interactions := fun _ => Except.ok [] }

/-- Environment with a tie at hybrid score `0` and a stored profile
`{"a"}` that overlaps only the first catalog item. -/
def envBoost : Env :=
  { get_all_items := Except.ok [itemA, itemB]
    get_user_preferences := fun _ => Except.ok (some ["a"])
    semantic_similarity := fun _ _ => Except.ok [0, 0]
    keyword_model := fun _ _ => Except.ok [0, 0]
    get_item := fun _ _ => Except.ok none
    get_user_interactions := fun _ => Except.ok [] }

/-- Environment for the C5 witness: one `like` and one `view` in the
history; item (1, event) resolves to `itemA` with tags `"a, b"`. -/
def envC5 : Env :=
  { get_all_items := Except.ok []
    get_user_preferences := fun _ => Except.ok none
    semantic_similarity := fun _ _ => Except.ok []
    keyword_model := fun _ _ => Except.ok []
    get_item := fun iid ty =>
      Except.ok (if iid = 1 ∧ ty = "event" then some itemA else none)
    get_user_interactions := fun _ =>
      Except.ok [⟨9, 1, "event", "like"⟩, ⟨9, 2, "course", "view"⟩] }

/-- Environment for the logging scenarios: two items, tied scores, no
stored profile, user id `1`. -/
def envLog : Env :=
  { get_all_items := Except.ok [itemA, itemB]
    get_user_preferences := fun _ => Except.ok none
    semantic_similarity := fun _ _ => Except.ok [0, 0]
    keyword_model := fun _ _ => Except.ok [0, 0]
    get_item := fun _ _ => Except.ok none
    get_user_interactions := fun _ => Except.ok [] }

/-! ### Helper lemmas about the argsort model -/

instance (s : List Rat) : IsTotal Nat (argsortRel s) := ⟨by
  intro i j
  rcases lt_trichotomy (s.getD i 0) (s.getD j 0) with h | h | h
  · exact Or.inl (Or.inl h)
  · rcases Nat.le_total i j with hij | hij
    · exact Or.inl (Or.inr ⟨h, hij⟩)
    · exact Or.inr (Or.inr ⟨h.symm, hij⟩)
  · exact Or.inr (Or.inl h)⟩

instance (s : List Rat) : IsTrans Nat (argsortRel s) := ⟨by
  intro a b c hab hbc
  rcases hab with h1 | ⟨h1, h1'⟩ <;> rcases hbc with h2 | ⟨h2, h2'⟩
  · exact Or.inl (h1.trans h2)
  · exact Or.inl (lt_of_lt_of_eq h1 h2)
  · exact Or.inl (lt_of_eq_of_lt h1 h2)
  · exact Or.inr ⟨h1.trans h2, le_trans h1' h2'⟩⟩

theorem argsort_perm (s : List Rat) :
    List.Perm (argsort s) (List.range s.length) :=
  List.perm_insertionSort _ _

theorem argsort_pairwise (s : List Rat) : (argsort s).Pairwise (argsortRel s) :=
  List.sorted_insertionSort _ _

theorem argsort_reverse_pairwise (s : List Rat) :
    ((argsort s).reverse).Pairwise (rankRel s) := by
  rw [List.pairwise_reverse]
  have hnd : (argsort s).Nodup :=
    ((argsort_perm s).nodup_iff).mpr (List.nodup_range _)
  have hcomb := (argsort_pairwise s).and hnd
  refine hcomb.imp ?_
  intro a b hab
  rcases hab with ⟨hr | ⟨he, hle⟩, hne⟩
  · exact Or.inl hr
  · exact Or.inr ⟨he.symm, lt_of_le_of_ne hle hne⟩

theorem indexOf_lt_indexOf_of_pairwise {l : List Nat} {R : Nat → Nat → Prop}
    {i j : Nat} (hp : l.Pairwise R) (hi : i ∈ l) (hj : j ∈ l) (hne : i ≠ j)
    (hnR : ¬ R j i) : l.indexOf i < l.indexOf j := by
  have hil : l.indexOf i < l.length := List.indexOf_lt_length.mpr hi
  have hjl : l.indexOf j < l.length := List.indexOf_lt_length.mpr hj
  rcases Nat.lt_trichotomy (l.indexOf i) (l.indexOf j) with h | h | h
  · exact h
  · exact absurd ((List.indexOf_inj hi hj).mp h) hne
  · exfalso
    have hR := List.pairwise_iff_getElem.mp hp _ _ hjl hil h
    rw [List.getElem_indexOf hjl, List.getElem_indexOf hil] at hR
    exact hnR hR

/-! ### Claim theorems -/

/-- C8: for `hybrid_weight ∈ [0,1]` and sub-scores in `[0,1]`, the
pre-boost hybrid score `w * semantic + (1 - w) * keyword`
(src/recommender.py lines 111-113) lies between the minimum and the
maximum of the two sub-scores. -/
theorem hybrid_convex_combination (w s k : Rat) (hw0 : 0 ≤ w) (hw1 : w ≤ 1)
    (hs0 : 0 ≤ s) (hs1 : s ≤ 1) (hk0 : 0 ≤ k) (hk1 : k ≤ 1) :
    min s k ≤ hybridScore w s k ∧ hybridScore w s k ≤ max s k := by
  unfold hybridScore
  constructor
  · rcases le_total s k with h | h
    · rw [min_eq_left h]; nlinarith
    · rw [min_eq_right h]; nlinarith
  · rcases le_total s k with h | h
    · rw [max_eq_right h]; nlinarith
    · rw [max_eq_left h]; nlinarith

/-- Witness for C8 at `w = 7/10`, `semantic = 1/2`, `keyword = 1/3`. -/
theorem hybrid_convex_combination_witness :
    min (1/2 : Rat) (1/3) ≤ hybridScore (7/10) (1/2) (1/3) ∧
      hybridScore (7/10) (1/2) (1/3) ≤ max (1/2 : Rat) (1/3) :=
  hybrid_convex_combination (7/10) (1/2) (1/3) (by norm_num) (by norm_num)
    (by norm_num) (by norm_num) (by norm_num) (by norm_num)

/-- C9: when the keyword-relevance model call fails,
`keyword_relevance` (src/recommender.py lines 56-70) returns a zero
vector of exactly the input length, and the hybrid combination then
reduces to the semantic scores scaled by the hybrid weight. -/
theorem keyword_relevance_fallback (env : Env) (query : String)
    (texts : List String)
    (hfail : env.keyword_model query texts = Except.error ()) :
    keyword_relevance env query texts = List.replicate texts.length 0 ∧
    (keyword_relevance env query texts).length = texts.length ∧
    ∀ (w : Rat) (sem : List Rat), sem.length = texts.length →
      List.zipWith (hybridScore w) sem (keyword_relevance env query texts) =
        sem.map (fun x => w * x) := by
  have hk : keyword_relevance env query texts = List.replicate texts.length 0 := by
    unfold keyword_relevance
    rw [hfail]
  refine ⟨hk, by rw [hk]; simp, ?_⟩
  intro w sem hlen
  rw [hk, ← hlen]
  have aux : ∀ u : List Rat,
      List.zipWith (hybridScore w) u (List.replicate u.length 0) =
        u.map (fun x => w * x) := by
    intro u
    induction u with
    | nil => simp
    | cons a t ih =>
      simp only [List.length_cons, List.replicate_succ, List.zipWith_cons_cons,
        List.map_cons, ih]
      congr 1
      unfold hybridScore
      rw [mul_zero, add_zero]
  exact aux sem

/-- Witness for C9: a failing model call on two texts yields `[0, 0]`. -/
theorem keyword_relevance_fallback_witness :
    keyword_relevance envKwFail "q" ["t1", "t2"] = [0, 0] := by
  have h := (keyword_relevance_fallback envKwFail "q" ["t1", "t2"] rfl).1
  simpa using h

theorem bumpSpec_bumpPopularity (rows : List Row) (iid : Int) :
    bumpSpec rows (bumpPopularity iid rows) iid := by
  unfold bumpSpec bumpPopularity
  refine ⟨by simp, ?_⟩
  intro n hn hn'
  simp only [List.getElem_map]
  by_cases h : (rows[n]).id = iid <;> simp [h]

/-- C10: `log_interaction` (src/database.py lines 271-321) with kind
`like`/`bookmark` increments the referenced item's popularity by
exactly one in the table named by `item_type` and leaves the other
table and every other item field unchanged; with kind `view`,
`dislike` or `recommendation` both item tables are left entirely
unchanged (for `recommendation` the insert itself is rejected by the
CHECK constraint). -/
theorem log_interaction_popularity_frame (db : DBState) (u iid : Int)
    (ty k : String) :
    ((k = "like" ∨ k = "bookmark") →
      (ty = "event" →
        bumpSpec db.events ((log_interaction db u iid ty k).2).events iid ∧
        ((log_interaction db u iid ty k).2).courses = db.courses) ∧
      (ty = "course" →
        bumpSpec db.courses ((log_interaction db u iid ty k).2).courses iid ∧
        ((log_interaction db u iid ty k).2).events = db.events)) ∧
    ((k = "view" ∨ k = "dislike" ∨ k = "recommendation") →
      ((log_interaction db u iid ty k).2).events = db.events ∧
      ((log_interaction db u iid ty k).2).courses = db.courses) := by
  constructor
  · intro hk
    constructor
    · intro hty
      subst hty
      rcases hk with hk | hk <;> subst hk <;>
        exact ⟨bumpSpec_bumpPopularity db.events iid, rfl⟩
    · intro hty
      subst hty
      rcases hk with hk | hk <;> subst hk <;>
        exact ⟨bumpSpec_bumpPopularity db.courses iid, rfl⟩
  · intro hk
    rcases hk with hk | hk | hk <;> subst hk <;>
      cases hv : validItemType ty <;>
        simp only [log_interaction, hv] <;> exact ⟨rfl, rfl⟩

/-- Witness for C10: a `like` on event 1 bumps only that event row. -/
theorem log_interaction_popularity_frame_witness :
    bumpSpec dbW.events ((log_interaction dbW 7 1 "event" "like").2).events 1 ∧
    ((log_interaction dbW 7 1 "event" "like").2).courses = dbW.courses := by
  have h := (log_interaction_popularity_frame dbW 7 1 "event" "like").1
    (Or.inl rfl) |>.1 rfl
  exact ⟨h.1, h.2⟩

/-- C4: when the user's interaction history holds no `like` or
`bookmark`, `train_user_preferences` (src/recommender.py lines
161-200) returns `false` and performs no store write at all. -/
theorem train_no_positive_interactions (env : Env) (db : DBState) (uid : Int)
    (l : List Interaction)
    (hl : env.get_user_interactions uid = Except.ok l)
    (hnone : ∀ i ∈ l,
      i.interaction_type ≠ "like" ∧ i.interaction_type ≠ "bookmark") :
    train_user_preferences env db uid = (false, db) := by
  cases l with
  | nil =>
    unfold train_user_preferences train_user_preferencesE
    rw [hl]
    rfl
  | cons a t =>
    have hfilter : List.filter
        (fun i => decide (i.interaction_type = "like" ∨
          i.interaction_type = "bookmark")) (a :: t) = [] := by
      rw [List.filter_eq_nil_iff]
      intro i hi
      have h := hnone i hi
      simp [h.1, h.2]
    unfold train_user_preferences train_user_preferencesE
    rw [hl]
    simp only [List.isEmpty_cons, Bool.false_eq_true, if_false, hfilter,
      List.isEmpty_nil, if_true]

/-- Witness for C4: a history of a single `view` gives `false` and
leaves the store untouched. -/
theorem train_no_positive_interactions_witness :
    train_user_preferences envC4 dbW 1 = (false, dbW) := by
  refine train_no_positive_interactions envC4 dbW 1 [⟨1, 1, "event", "view"⟩] rfl ?_
  intro i hi
  rw [List.mem_singleton] at hi
  subst hi
  exact ⟨by decide, by decide⟩

/-- Pointwise description of `applyBoost`. -/
theorem applyBoost_getD (prefs : List String) :
    ∀ (items : List Item) (s : List Rat) (i : Nat),
      s.length = items.length → i < items.length →
      (applyBoost prefs items s).getD i 0 =
        (if 0 < commonTagCount prefs ((items.getD i default).tags) then
          s.getD i 0 *
            (1 + (commonTagCount prefs ((items.getD i default).tags) : Rat) / 5)
        else s.getD i 0) := by
  intro items
  induction items with
  | nil =>
    intro s i _ hi
    exact absurd hi (Nat.not_lt_zero i)
  | cons it rest ih =>
    intro s i hlen hi
    cases s with
    | nil => simp at hlen
    | cons sc st =>
      cases i with
      | zero => simp [applyBoost]
      | succ n =>
        have hrec := ih st n (by simpa using hlen)
          (by simp only [List.length_cons] at hi; omega)
        simp only [applyBoost, List.zip_cons_cons, List.map_cons,
          List.getD_cons_succ] at hrec ⊢
        exact hrec

/-- C6: with a profile holding non-empty `preferred_tags`, an item
sharing `c > 0` parsed tags with the profile has its hybrid score
multiplied by exactly `1 + 0.2 * c` (no cap), an item with `c = 0`
keeps its score; and when no profile applies (`user_id` absent, no
stored `preferred_tags`, or an empty list) every score is returned
unchanged (src/recommender.py lines 115-124). -/
theorem tag_boost_formula :
    (∀ (prefs : List String) (items : List Item) (s : List Rat) (i : Nat),
      s.length = items.length → i < items.length →
      (applyBoost prefs items s).getD i 0 =
        (if 0 < commonTagCount prefs ((items.getD i default).tags) then
          s.getD i 0 *
            (1 + (commonTagCount prefs ((items.getD i default).tags) : Rat) / 5)
        else s.getD i 0)) ∧
    (∀ (env : Env) (items : List Item) (s : List Rat),
      boostedScores env none items s = Except.ok s) ∧
    (∀ (env : Env) (u : Int) (items : List Item) (s : List Rat), u ≠ 0 →
      env.get_user_preferences u = Except.ok none →
      boostedScores env (some u) items s = Except.ok s) ∧
    (∀ (env : Env) (u : Int) (items : List Item) (s : List Rat), u ≠ 0 →
      env.get_user_preferences u = Except.ok (some []) →
      boostedScores env (some u) items s = Except.ok s) := by
  refine ⟨applyBoost_getD, fun env items s => rfl, ?_, ?_⟩
  · intro env u items s hu hp
    simp [boostedScores, hu, hp]
  · intro env u items s hu hp
    simp [boostedScores, hu, hp]

/-- Witness for C6: one overlapping tag multiplies a score of `2` by
`1 + 0.2`, and an absent `user_id` leaves scores untouched. -/
theorem tag_boost_formula_witness :
    (applyBoost ["a"] [itemA] [2]).getD 0 0 = 2 * (1 + (1 : Rat) / 5) ∧
    boostedScores envKwFail none [itemA] [2] = Except.ok [2] := by
  constructor
  · have h := tag_boost_formula.1 ["a"] [itemA] [2] 0 rfl (by norm_num)
    have hc : commonTagCount ["a"] ((([itemA] : List Item).getD 0 default).tags) = 1 := by
      decide
    rw [hc] at h
    norm_num at h ⊢
    exact h
  · exact tag_boost_formula.2.1 envKwFail [itemA] [2]

/-! ### Evaluation helpers for `recommend` -/

theorem boostedScores_ok (env : Env) (uid : Option Int) (items : List Item)
    (scores : List Rat)
    (h : ∀ u, uid = some u → u ≠ 0 →
      env.get_user_preferences u ≠ Except.error ()) :
    ∃ v, boostedScores env uid items scores = Except.ok v := by
  cases uid with
  | none => exact ⟨scores, rfl⟩
  | some u =>
    by_cases hu : u = 0
    · exact ⟨scores, by simp [boostedScores, hu]⟩
    · cases hp : env.get_user_preferences u with
      | error e =>
        cases e
        exact absurd hp (h u rfl hu)
      | ok v =>
        cases v with
        | none => exact ⟨scores, by simp [boostedScores, hu, hp]⟩
        | some ts =>
          cases hts : ts.isEmpty with
          | true => exact ⟨scores, by simp [boostedScores, hu, hp, hts]⟩
          | false =>
            exact ⟨applyBoost ts items scores,
              by simp [boostedScores, hu, hp, hts]⟩

theorem recommendE_ok_eq (env : Env) (db : DBState) (q : String)
    (uid : Option Int) (limit : Nat) (w : Rat) (items : List Item)
    (sem hs : List Rat)
    (hitems : env.get_all_items = Except.ok items)
    (hne : items.isEmpty = false)
    (hsem : env.semantic_similarity q (items.map itemText) = Except.ok sem)
    (hsl : sem.length = items.length)
    (hkl : (keyword_relevance env q (items.map itemText)).length = items.length)
    (hb : boostedScores env uid items
        (List.zipWith (hybridScore w) sem
          (keyword_relevance env q (items.map itemText))) = Except.ok hs) :
    recommendE env db q uid limit w =
      Except.ok ((((argsort hs).reverse).take limit).foldl
        (buildStep uid items sem (keyword_relevance env q (items.map itemText)) hs)
        ([], db)) := by
  unfold recommendE
  rw [hitems]
  simp only [hne, Bool.false_eq_true, if_false, hsem, hsl, hkl,
    eq_self_iff_true, and_self, if_true, hb]

theorem recommend_eval (env : Env) (db : DBState) (q : String)
    (uid : Option Int) (limit : Nat) (w : Rat) (items : List Item)
    (sem hs : List Rat)
    (hitems : env.get_all_items = Except.ok items)
    (hne : items.isEmpty = false)
    (hsem : env.semantic_similarity q (items.map itemText) = Except.ok sem)
    (hsl : sem.length = items.length)
    (hkl : (keyword_relevance env q (items.map itemText)).length = items.length)
    (hb : boostedScores env uid items
        (List.zipWith (hybridScore w) sem
          (keyword_relevance env q (items.map itemText))) = Except.ok hs) :
    recommend env db q uid limit w =
      (((argsort hs).reverse).take limit).foldl
        (buildStep uid items sem (keyword_relevance env q (items.map itemText)) hs)
        ([], db) := by
  unfold recommend
  rw [recommendE_ok_eq env db q uid limit w items sem hs hitems hne hsem hsl hkl hb]

/-- C3 counterexample: two items with equal hybrid scores are emitted
with the LATER catalog item first (`[2, 1]`, not `[1, 2]`): the claim's
catalog-order tie-break is refuted at this input. -/
theorem tie_order_counterexample :
    (recommend envTie dbW "q" none 5 (7/10)).1.map (fun r => r.id) = [2, 1] ∧
    (recommend envTie dbW "q" none 5 (7/10)).1.map (fun r => r.score) = [0, 0] := by
  have hz : List.zipWith (hybridScore (7/10)) [(0 : Rat), 0] [(0 : Rat), 0] =
      [0, 0] := by
    simp [hybridScore]
  have hb : boostedScores envTie none [itemA, itemB]
      (List.zipWith (hybridScore (7/10)) [(0 : Rat), 0] [(0 : Rat), 0]) =
      Except.ok [0, 0] := by
    rw [hz]
    rfl
  rw [recommend_eval envTie dbW "q" none 5 (7/10) [itemA, itemB] [0, 0] [0, 0]
    rfl rfl rfl rfl rfl hb]
  decide

/-- C3 amended: the emission order of `recommend` — the reversal of the
stable ascending `argsort` — is a permutation of the catalog indices
sorted by hybrid score descending in which equal-score items appear in
REVERSE catalog order (later index first), not catalog order. -/
theorem ranking_order_spec (s : List Rat) :
    List.Perm ((argsort s).reverse) (List.range s.length) ∧
    ((argsort s).reverse).Pairwise (rankRel s) :=
  ⟨(List.reverse_perm _).trans (argsort_perm s), argsort_reverse_pairwise s⟩

/-- C7 counterexample: both items have pre-boost hybrid score `0`
(equal); item 1 overlaps the profile in one tag, item 2 in none, yet
item 1 is ranked BELOW item 2 (`[2, 1]`): multiplying a zero score by
the boost leaves the tie, and the tie-break emits the later catalog
item first. -/
theorem boost_monotonicity_counterexample :
    (recommend envBoost dbW "q" (some 5) 5 (7/10)).1.map (fun r => r.id) = [2, 1] ∧
    (recommend envBoost dbW "q" (some 5) 5 (7/10)).1.map (fun r => r.score) = [0, 0] ∧
    (commonTagCount ["a"] itemA.tags = 1 ∧ commonTagCount ["a"] itemB.tags = 0) ∧
    hybridScore (7/10) 0 0 = 0 := by
  have hz : List.zipWith (hybridScore (7/10)) [(0 : Rat), 0] [(0 : Rat), 0] =
      [0, 0] := by
    simp [hybridScore]
  have hab : applyBoost ["a"] [itemA, itemB] [0, 0] = [0, 0] := by
    have hc1 : commonTagCount ["a"] itemA.tags = 1 := by decide
    have hc2 : commonTagCount ["a"] itemB.tags = 0 := by decide
    simp [applyBoost, hc1, hc2]
  have hb : boostedScores envBoost (some 5) [itemA, itemB]
      (List.zipWith (hybridScore (7/10)) [(0 : Rat), 0] [(0 : Rat), 0]) =
      Except.ok [0, 0] := by
    rw [hz]
    simp [boostedScores, envBoost, hab]
  rw [recommend_eval envBoost dbW "q" (some 5) 5 (7/10) [itemA, itemB] [0, 0]
    [0, 0] rfl rfl rfl rfl rfl hb]
  exact ⟨by decide, by decide, ⟨by decide, by decide⟩, by simp [hybridScore]⟩

/-- C7 amended: for two items with EQUAL and STRICTLY POSITIVE
pre-boost hybrid score, the item overlapping `preferred_tags` in
strictly more tags is ranked strictly above the other in the emission
order of `recommend`; with a zero (or negative) equal pre-boost score
this can fail, as the counterexample shows. -/
theorem boost_monotonicity_positive (prefs : List String) (items : List Item)
    (s : List Rat) (i j : Nat)
    (hlen : s.length = items.length) (hi : i < items.length)
    (hj : j < items.length)
    (heq : s.getD i 0 = s.getD j 0) (hpos : 0 < s.getD i 0)
    (hc : commonTagCount prefs ((items.getD j default).tags) <
      commonTagCount prefs ((items.getD i default).tags)) :
    ((argsort (applyBoost prefs items s)).reverse).indexOf i <
      ((argsort (applyBoost prefs items s)).reverse).indexOf j := by
  have hpostlen : (applyBoost prefs items s).length = items.length := by
    simp [applyBoost, List.length_zip, hlen]
  have hpi := applyBoost_getD prefs items s i hlen hi
  have hpj := applyBoost_getD prefs items s j hlen hj
  have hgt : (applyBoost prefs items s).getD j 0 <
      (applyBoost prefs items s).getD i 0 := by
    rw [hpi, hpj, ← heq]
    have hcast : ((commonTagCount prefs ((items.getD j default).tags)) : Rat) <
        ((commonTagCount prefs ((items.getD i default).tags)) : Rat) := by
      exact_mod_cast hc
    have hci1 : (1 : Rat) ≤ ((commonTagCount prefs ((items.getD i default).tags)) : Rat) := by
      have : 1 ≤ commonTagCount prefs ((items.getD i default).tags) := by omega
      exact_mod_cast this
    rw [if_pos (by omega : 0 < commonTagCount prefs ((items.getD i default).tags))]
    by_cases h0 : 0 < commonTagCount prefs ((items.getD j default).tags)
    · rw [if_pos h0]
      nlinarith
    · rw [if_neg h0]
      nlinarith
  have hmem : ∀ m, m < items.length →
      m ∈ (argsort (applyBoost prefs items s)).reverse := by
    intro m hm
    refine List.mem_reverse.mpr ((argsort_perm _).mem_iff.mpr ?_)
    exact List.mem_range.mpr (by rw [hpostlen]; exact hm)
  have hne : i ≠ j := by
    intro h
    subst h
    exact lt_irrefl _ hc
  have hnR : ¬ rankRel (applyBoost prefs items s) j i := by
    intro hR
    rcases hR with h | ⟨h, _⟩
    · exact lt_asymm hgt h
    · exact absurd h (ne_of_lt hgt)
  exact indexOf_lt_indexOf_of_pairwise (argsort_reverse_pairwise _)
    (hmem i hi) (hmem j hj) hne hnR

/-- Witness for C7: equal pre-boost score `1`, one overlapping tag
versus none — the overlapping item is emitted first. -/
theorem boost_monotonicity_positive_witness :
    ((argsort (applyBoost ["a"] [itemA, itemB] [1, 1])).reverse).indexOf 0 <
      ((argsort (applyBoost ["a"] [itemA, itemB] [1, 1])).reverse).indexOf 1 :=
  boost_monotonicity_positive ["a"] [itemA, itemB] [1, 1] 0 1 rfl
    (by norm_num) (by norm_num) rfl (by norm_num) (by decide)

/-! ### Helper lemmas for the preference learner -/

theorem mem_unionTags {acc ts : List String} {t : String} :
    t ∈ unionTags acc ts ↔ t ∈ acc ∨ t ∈ ts := by
  unfold unionTags
  rw [List.mem_append, List.mem_filter]
  by_cases h : t ∈ acc
  · simp [h]
  · simp [h, List.elem_eq_mem]

theorem collectTags_ok (env : Env)
    (hitem : ∀ iid ty, env.get_item iid ty ≠ Except.error ()) :
    ∀ (pos : List Interaction) (acc : List String),
      ∃ res, collectTags env pos acc = Except.ok res ∧
        ∀ t, t ∈ res ↔ t ∈ acc ∨ ∃ i ∈ pos, ∃ it,
          env.get_item i.item_id i.item_type = Except.ok (some it) ∧
          it.tags ≠ "" ∧ t ∈ splitTags it.tags := by
  intro pos
  induction pos with
  | nil =>
    intro acc
    exact ⟨acc, rfl, by simp⟩
  | cons i rest ih =>
    intro acc
    cases hg : env.get_item i.item_id i.item_type with
    | error e =>
      cases e
      exact absurd hg (hitem _ _)
    | ok v =>
      cases v with
      | none =>
        obtain ⟨res, hres, hiff⟩ := ih acc
        refine ⟨res, by simpa [collectTags, hg] using hres, ?_⟩
        intro t
        rw [hiff t]
        constructor
        · rintro (h | ⟨i', hi', hrest⟩)
          · exact Or.inl h
          · exact Or.inr ⟨i', List.mem_cons_of_mem _ hi', hrest⟩
        · rintro (h | ⟨i', hi', it, hit, htags, ht⟩)
          · exact Or.inl h
          · rcases List.mem_cons.mp hi' with he | hm
            · subst he
              rw [hg] at hit
              simp at hit
            · exact Or.inr ⟨i', hm, it, hit, htags, ht⟩
      | some it =>
        by_cases htags : it.tags = ""
        · obtain ⟨res, hres, hiff⟩ := ih acc
          refine ⟨res, by simpa [collectTags, hg, htags] using hres, ?_⟩
          intro t
          rw [hiff t]
          constructor
          · rintro (h | ⟨i', hi', hrest⟩)
            · exact Or.inl h
            · exact Or.inr ⟨i', List.mem_cons_of_mem _ hi', hrest⟩
          · rintro (h | ⟨i', hi', it', hit', htags', ht'⟩)
            · exact Or.inl h
            · rcases List.mem_cons.mp hi' with he | hm
              · subst he
                rw [hg] at hit'
                have : it' = it := by
                  injection hit' with h1
                  exact (Option.some.inj h1).symm
                subst this
                exact absurd htags htags'
              · exact Or.inr ⟨i', hm, it', hit', htags', ht'⟩
        · obtain ⟨res, hres, hiff⟩ := ih (unionTags acc ((splitTags it.tags).dedup))
          refine ⟨res, by simpa [collectTags, hg, htags] using hres, ?_⟩
          intro t
          rw [hiff t, mem_unionTags, List.mem_dedup]
          constructor
          · rintro ((h | h) | ⟨i', hi', hrest⟩)
            · exact Or.inl h
            · exact Or.inr ⟨i, List.mem_cons_self i rest, it, hg, htags, h⟩
            · exact Or.inr ⟨i', List.mem_cons_of_mem _ hi', hrest⟩
          · rintro (h | ⟨i', hi', it', hit', htags', ht'⟩)
            · exact Or.inl (Or.inl h)
            · rcases List.mem_cons.mp hi' with he | hm
              · subst he
                rw [hg] at hit'
                have : it' = it := by
                  injection hit' with h1
                  exact (Option.some.inj h1).symm
                subst this
                exact Or.inl (Or.inr ht')
              · exact Or.inr ⟨i', hm, it', hit', htags', ht'⟩

theorem find_map_self (uid : Int) (tags : List String) :
    ∀ (l : List (Int × Option (List String))), (∃ u ∈ l, u.1 = uid) →
      ((l.map (fun u => if u.1 = uid then (u.1, some tags) else u)).find?
        (fun u => decide (u.1 = uid))) = some (uid, some tags) := by
  intro l
  induction l with
  | nil =>
    rintro ⟨u, hu, _⟩
    cases hu
  | cons a rest ih =>
    rintro ⟨u, hu, huid⟩
    by_cases ha : a.1 = uid
    · simp [List.find?_cons, ha]
    · rcases List.mem_cons.mp hu with he | hm
      · subst he
        exact absurd huid ha
      · simpa [List.find?_cons, ha] using ih ⟨u, hm, huid⟩

theorem storedPrefs_update (db : DBState) (uid : Int) (tags : List String) :
    storedPrefs ((update_user_preferences db uid tags).2) uid =
      some (some tags) := by
  unfold storedPrefs update_user_preferences
  have hmem : ∃ u ∈ (if db.users.any (fun u => decide (u.1 = uid)) then db.users
      else db.users ++ [(uid, none)]), u.1 = uid := by
    by_cases h : db.users.any (fun u => decide (u.1 = uid)) = true
    · rw [if_pos h]
      obtain ⟨u, hu, hdec⟩ := List.any_eq_true.mp h
      exact ⟨u, hu, of_decide_eq_true hdec⟩
    · rw [if_neg h]
      exact ⟨(uid, none), List.mem_append_right _ (List.mem_singleton.mpr rfl), rfl⟩
  rw [find_map_self uid tags _ hmem]
  rfl

/-- C5: with at least one `like`/`bookmark` in the history (and a
store whose item lookups do not fail), `train_user_preferences`
returns `true` and stores, as the user's new `preferred_tags`, exactly
the union of the parsed tag sets of the resolvable positive
interactions' items — independent of any previously stored value
(overwrite, not merge), and with `view`/`dislike`/`recommendation`
interactions contributing nothing. -/
theorem train_overwrites_preferred_tags (env : Env) (db : DBState) (uid : Int)
    (l : List Interaction)
    (hl : env.get_user_interactions uid = Except.ok l)
    (hitem : ∀ iid ty, env.get_item iid ty ≠ Except.error ())
    (hpos : ∃ i ∈ l,
      i.interaction_type = "like" ∨ i.interaction_type = "bookmark") :
    ∃ stored,
      train_user_preferences env db uid =
        (true, (update_user_preferences db uid stored).2) ∧
      storedPrefs (train_user_preferences env db uid).2 uid =
        some (some stored) ∧
      ∀ t, t ∈ stored ↔ ∃ i ∈ l,
        (i.interaction_type = "like" ∨ i.interaction_type = "bookmark") ∧
        ∃ it, env.get_item i.item_id i.item_type = Except.ok (some it) ∧
          it.tags ≠ "" ∧ t ∈ splitTags it.tags := by
  obtain ⟨i0, hi0, hk0⟩ := hpos
  have hlne : l.isEmpty = false := by
    cases l with
    | nil => cases hi0
    | cons a t => rfl
  have hmemf : i0 ∈ List.filter
      (fun i => decide (i.interaction_type = "like" ∨
        i.interaction_type = "bookmark")) l :=
    List.mem_filter.mpr ⟨hi0, by simpa using hk0⟩
  have hfil : (List.filter
      (fun i => decide (i.interaction_type = "like" ∨
        i.interaction_type = "bookmark")) l).isEmpty = false := by
    cases hq : List.filter
        (fun i => decide (i.interaction_type = "like" ∨
          i.interaction_type = "bookmark")) l with
    | nil =>
      rw [hq] at hmemf
      cases hmemf
    | cons a t => rfl
  obtain ⟨res, hres, hiff⟩ := collectTags_ok env hitem
    (List.filter (fun i => decide (i.interaction_type = "like" ∨
      i.interaction_type = "bookmark")) l) []
  have hmain : train_user_preferences env db uid =
      (true, (update_user_preferences db uid res).2) := by
    unfold train_user_preferences train_user_preferencesE
    rw [hl]
    simp only [hlne, Bool.false_eq_true, if_false, hfil, hres]
  refine ⟨res, hmain, ?_, ?_⟩
  · rw [hmain]
    exact storedPrefs_update db uid res
  · intro t
    rw [hiff t]
    constructor
    · rintro (h | ⟨i, hi, hrest⟩)
      · cases h
      · obtain ⟨hil, hpi⟩ := List.mem_filter.mp hi
        exact ⟨i, hil, by simpa using hpi, hrest⟩
    · rintro ⟨i, hil, hki, hrest⟩
      exact Or.inr ⟨i, List.mem_filter.mpr ⟨hil, by simpa using hki⟩, hrest⟩

/-- Witness for C5 on `envC5` and an arbitrary concrete store. -/
theorem train_overwrites_preferred_tags_witness :
    ∃ stored,
      train_user_preferences envC5 dbW 9 =
        (true, (update_user_preferences dbW 9 stored).2) ∧
      storedPrefs (train_user_preferences envC5 dbW 9).2 9 =
        some (some stored) ∧
      ∀ t, t ∈ stored ↔ ∃ i ∈ ([⟨9, 1, "event", "like"⟩,
          ⟨9, 2, "course", "view"⟩] : List Interaction),
        (i.interaction_type = "like" ∨ i.interaction_type = "bookmark") ∧
        ∃ it, envC5.get_item i.item_id i.item_type = Except.ok (some it) ∧
          it.tags ≠ "" ∧ t ∈ splitTags it.tags := by
  refine train_overwrites_preferred_tags envC5 dbW 9
    [⟨9, 1, "event", "like"⟩, ⟨9, 2, "course", "view"⟩] rfl ?_ ?_
  · intro iid ty h
    simp [envC5] at h
  · exact ⟨⟨9, 1, "event", "like"⟩, List.mem_cons_self _ _, Or.inl rfl⟩

/-- C2: the `recommendation`-kind interaction that `recommend` tries to
log for each returned item (src/recommender.py lines 146-152) is
rejected by the CHECK constraint of the `interactions` table
(src/database.py line 99, which allows only
`view`/`like`/`dislike`/`bookmark`), so a user-scoped call returns its
results while appending NO interaction records: the store is returned
bit-for-bit unchanged. -/
theorem recommendation_interactions_never_logged :
    (recommend envLog dbW "q" (some 1) 5 (7/10)).1.length = 2 ∧
    (recommend envLog dbW "q" (some 1) 5 (7/10)).2 = dbW ∧
    dbW.interactions = [] ∧
    (log_interaction dbW 1 2 "course" "recommendation").1 = false := by
  have hz : List.zipWith (hybridScore (7/10)) [(0 : Rat), 0] [(0 : Rat), 0] =
      [0, 0] := by
    simp [hybridScore]
  have hb : boostedScores envLog (some 1) [itemA, itemB]
      (List.zipWith (hybridScore (7/10)) [(0 : Rat), 0] [(0 : Rat), 0]) =
      Except.ok [0, 0] := by
    rw [hz]
    rfl
  rw [recommend_eval envLog dbW "q" (some 1) 5 (7/10) [itemA, itemB] [0, 0]
    [0, 0] rfl rfl rfl rfl rfl hb]
  exact ⟨by decide, by decide, rfl, by decide⟩

/-- C1 counterexample: a call in which every attempted interaction log
fails (the `recommendation` kind always violates the store's CHECK
constraint) still returns a non-empty result list — the failure of the
logging step does not produce an empty sequence. -/
theorem log_failure_does_not_empty_results :
    (log_interaction dbW 1 1 "event" "recommendation") = (false, dbW) ∧
    (recommend envLog dbW "q" (some 1) 5 (7/10)).1 ≠ [] := by
  have hz : List.zipWith (hybridScore (7/10)) [(0 : Rat), 0] [(0 : Rat), 0] =
      [0, 0] := by
    simp [hybridScore]
  have hb : boostedScores envLog (some 1) [itemA, itemB]
      (List.zipWith (hybridScore (7/10)) [(0 : Rat), 0] [(0 : Rat), 0]) =
      Except.ok [0, 0] := by
    rw [hz]
    rfl
  rw [recommend_eval envLog dbW "q" (some 1) 5 (7/10) [itemA, itemB] [0, 0]
    [0, 0] rfl rfl rfl rfl rfl hb]
  exact ⟨by decide, by decide⟩

/-- C1 amended: `recommend` never raises — it returns the empty
sequence with the store untouched when the catalog read fails, when
the catalog is empty, when semantic scoring fails, or when the
preference read fails; when all of those succeed (with well-formed
score lengths) the body completes and returns the ranked results, even
when interaction logging fails inside the result loop (such failures
are swallowed by `log_interaction`, not converted to an empty
result). -/
theorem recommend_error_boundary (env : Env) (db : DBState) (q : String)
    (uid : Option Int) (limit : Nat) (w : Rat) :
    (env.get_all_items = Except.error () →
      recommend env db q uid limit w = ([], db)) ∧
    (env.get_all_items = Except.ok [] →
      recommend env db q uid limit w = ([], db)) ∧
    (∀ items, env.get_all_items = Except.ok items → items ≠ [] →
      env.semantic_similarity q (items.map itemText) = Except.error () →
      recommend env db q uid limit w = ([], db)) ∧
    (∀ items sem u, env.get_all_items = Except.ok items → items ≠ [] →
      env.semantic_similarity q (items.map itemText) = Except.ok sem →
      uid = some u → u ≠ 0 →
      env.get_user_preferences u = Except.error () →
      recommend env db q uid limit w = ([], db)) ∧
    (∀ items sem, env.get_all_items = Except.ok items → items ≠ [] →
      env.semantic_similarity q (items.map itemText) = Except.ok sem →
      sem.length = items.length →
      (keyword_relevance env q (items.map itemText)).length = items.length →
      (∀ u, uid = some u → u ≠ 0 →
        env.get_user_preferences u ≠ Except.error ()) →
      ∃ r, recommendE env db q uid limit w = Except.ok r ∧
        recommend env db q uid limit w = r) := by
  refine ⟨?_, ?_, ?_, ?_, ?_⟩
  · intro h
    unfold recommend recommendE
    rw [h]
  · intro h
    unfold recommend recommendE
    rw [h]
    rfl
  · intro items hitems hne hsem
    have hne' : items.isEmpty = false := by
      cases items with
      | nil => exact absurd rfl hne
      | cons a t => rfl
    unfold recommend recommendE
    rw [hitems]
    simp only [hne', Bool.false_eq_true, if_false, hsem]
  · intro items sem u hitems hne hsem huid hu hp
    subst huid
    have hne' : items.isEmpty = false := by
      cases items with
      | nil => exact absurd rfl hne
      | cons a t => rfl
    unfold recommend recommendE
    rw [hitems]
    simp only [hne', Bool.false_eq_true, if_false, hsem]
    by_cases hlen : sem.length = items.length ∧
        (keyword_relevance env q (items.map itemText)).length = items.length
    · simp only [if_pos hlen]
      simp [boostedScores, hu, hp]
    · simp only [if_neg hlen]
  · intro items sem hitems hne hsem hsl hkl hpref
    have hne' : items.isEmpty = false := by
      cases items with
      | nil => exact absurd rfl hne
      | cons a t => rfl
    obtain ⟨v, hb⟩ := boostedScores_ok env uid items
      (List.zipWith (hybridScore w) sem
        (keyword_relevance env q (items.map itemText))) hpref
    refine ⟨_, recommendE_ok_eq env db q uid limit w items sem v hitems hne'
      hsem hsl hkl hb, ?_⟩
    unfold recommend
    rw [recommendE_ok_eq env db q uid limit w items sem v hitems hne'
      hsem hsl hkl hb]

/-- Witness for C1 (amended): on an empty catalog the call returns the
empty sequence with the store unchanged. -/
theorem recommend_error_boundary_witness :
    recommend envKwFail dbW "q" none 5 (7/10) = ([], dbW) :=
  (recommend_error_boundary envKwFail dbW "q" none 5 (7/10)).2.1 rfl

end EduRec
